import Mathlib

set_option maxHeartbeats 1000000
set_option maxRecDepth 4000

/-!
Shallow embedding of the `VestingBoost` ledger from `src/main.py`.

Python numeric values (ints and floats that only ever hold exact results of
rational arithmetic here) are modelled as rationals `ℚ`.  The process-wide
global clock `BLOCK_TIMESTAMP : int` is modelled as an explicit `ℤ` value
threaded through every operation.  Python division raises `ZeroDivisionError`;
every division in the source is therefore guarded by an explicit error case.
A Python exception aborts the method but leaves the object in whatever
partially mutated condition it had reached, so the mutating operations below
return `Option VBErr × VB`: the error, if any, together with the state of the
object after the call.
-/

/-- `ONE_YEAR_IN_SECONDS = 365 * 24 * 3600` from the source. -/
def ONE_YEAR_IN_SECONDS : ℚ := 365 * 24 * 3600

/-- The mutable fields of the Python class `VestingBoost`, in source order. -/
structure VB where
  remain_vest_token : ℚ
  total_boost_token : ℚ
  total_vested : ℚ
  speed : ℚ
  boost_weight : ℚ
  total_duration_seconds : ℚ
  last_update_time : ℤ
  claimed_amount : ℚ
  claimable_boost_token : ℚ
  claimable_vested_token : ℚ
deriving DecidableEq

/-- Errors an operation can raise.  `divisionByZero` is Python's
`ZeroDivisionError` (the spec's `InvalidState`); the other two are the
`AssertionError`s of `boost`, named after the spec's taxonomy. -/
inductive VBErr where
  | divisionByZero
  | noTokensToVest
  | boostExceedsCap
deriving DecidableEq

instance {ε α : Type} [DecidableEq ε] [DecidableEq α] : DecidableEq (Except ε α) :=
  fun a b =>
    match a, b with
    | .ok x, .ok y =>
      if h : x = y then .isTrue (by rw [h]) else .isFalse (by simp [h])
    | .error e, .error f =>
      if h : e = f then .isTrue (by rw [h]) else .isFalse (by simp [h])
    | .ok _, .error _ => .isFalse (by simp)
    | .error _, .ok _ => .isFalse (by simp)

/-- `_update_vesting_speed`:
`multiplier = (remain + boost_weight) / remain`;
`speed = multiplier * (remain / total_duration_seconds)`.
Python raises `ZeroDivisionError` when `remain == 0` (first division) or when
`total_duration_seconds == 0` (second division). -/
def VB.update_vesting_speed (s : VB) : Except VBErr VB :=
  if s.remain_vest_token = 0 then .error .divisionByZero
  else if s.total_duration_seconds = 0 then .error .divisionByZero
  else .ok { s with speed :=
    ((s.remain_vest_token + s.boost_weight) / s.remain_vest_token) *
      (s.remain_vest_token / s.total_duration_seconds) }

/-- `__init__(initial_vesting)`: sets every field, then calls
`_update_vesting_speed` (which raises if `initial_vesting == 0`).  On the
raise the object is never produced. -/
def VB.init (block_timestamp : ℤ) (initial_vesting : ℚ) : Except VBErr VB :=
  VB.update_vesting_speed
    { remain_vest_token := initial_vesting
      total_boost_token := 0
      total_vested := 0
      speed := 0
      boost_weight := 0
      total_duration_seconds := ONE_YEAR_IN_SECONDS * 2
      last_update_time := block_timestamp
      claimed_amount := 0
      claimable_boost_token := 0
      claimable_vested_token := 0 }

/-- `_reset_state`: flush `total_boost_token` and
`total_vested - claimed_amount` into the claimable accumulators and zero the
per-epoch fields; `last_update_time` becomes the current `BLOCK_TIMESTAMP`. -/
def VB.reset_state (block_timestamp : ℤ) (s : VB) : VB :=
  { remain_vest_token := 0
    total_boost_token := 0
    total_vested := 0
    speed := 0
    boost_weight := 0
    total_duration_seconds := ONE_YEAR_IN_SECONDS * 2
    last_update_time := block_timestamp
    claimed_amount := 0
    claimable_boost_token := s.claimable_boost_token + s.total_boost_token
    claimable_vested_token := s.claimable_vested_token + (s.total_vested - s.claimed_amount) }

/-- `cal_state_update` (pure):
`time_elapsed = BLOCK_TIMESTAMP - last_update_time`;
`new_vested = min(speed * time_elapsed, remain_vest_token)`;
`new_boost_weight = total_boost_token * ((total_vested + new_vested) / (remain_vest_token + total_vested))`.
The division raises when `remain_vest_token + total_vested == 0`. -/
def VB.cal_state_update (block_timestamp : ℤ) (s : VB) : Except VBErr (ℚ × ℚ) :=
  let time_elapsed : ℚ := ((block_timestamp - s.last_update_time : ℤ) : ℚ)
  let new_vested : ℚ := min (s.speed * time_elapsed) s.remain_vest_token
  if s.remain_vest_token + s.total_vested = 0 then .error .divisionByZero
  else .ok (new_vested, s.total_boost_token *
    ((s.total_vested + new_vested) / (s.remain_vest_token + s.total_vested)))

/-- `_update_state`: when `last_update_time < BLOCK_TIMESTAMP`, apply the
result of `cal_state_update` to the fields; otherwise no-op.  On the raise
inside `cal_state_update` no field has been touched yet. -/
def VB.update_state (block_timestamp : ℤ) (s : VB) : Except VBErr VB :=
  if s.last_update_time < block_timestamp then
    match VB.cal_state_update block_timestamp s with
    | .error e => .error e
    | .ok (new_vested, new_boost_weight) =>
      .ok { s with
        total_vested := s.total_vested + new_vested
        remain_vest_token := s.remain_vest_token - new_vested
        boost_weight := new_boost_weight
        last_update_time := block_timestamp }
  else .ok s

/-- `boost(boost_amount)`: two asserts against the *stale* fields, then
`_update_state`, then `total_boost_token += amount; boost_weight += amount`,
then `_update_vesting_speed`.  The second component of the result is the
state of the object when the call returns or raises. -/
def VB.boost (block_timestamp : ℤ) (boost_amount : ℚ) (s : VB) : Option VBErr × VB :=
  if ¬ (0 < s.remain_vest_token) then (some .noTokensToVest, s)
  else if ¬ (s.total_boost_token + boost_amount ≤ s.remain_vest_token + s.total_vested) then
    (some .boostExceedsCap, s)
  else
    match VB.update_state block_timestamp s with
    | .error e => (some e, s)
    | .ok s1 =>
      let s2 : VB := { s1 with
        total_boost_token := s1.total_boost_token + boost_amount
        boost_weight := s1.boost_weight + boost_amount }
      match VB.update_vesting_speed s2 with
      | .error e => (some e, s2)
      | .ok s3 => (none, s3)

/-- `add_vesting(additional_vesting)`: `_update_state`; if the reconciled
`remain_vest_token` is `0`, `_reset_state`; then
`remain_vest_token += additional_vesting`; then `_update_vesting_speed`.
No validation of the amount is performed by the source. -/
def VB.add_vesting (block_timestamp : ℤ) (additional_vesting : ℚ) (s : VB) :
    Option VBErr × VB :=
  match VB.update_state block_timestamp s with
  | .error e => (some e, s)
  | .ok s1 =>
    let s2 : VB := if s1.remain_vest_token = 0 then VB.reset_state block_timestamp s1 else s1
    let s3 : VB := { s2 with remain_vest_token := s2.remain_vest_token + additional_vesting }
    match VB.update_vesting_speed s3 with
    | .error e => (some e, s3)
    | .ok s4 => (none, s4)

/-- `adjust_time(additional_seconds)`: `BLOCK_TIMESTAMP += additional_seconds`.
It touches only the global clock, never the object, and performs no check. -/
def VB.adjust_time (block_timestamp additional_seconds : ℤ) : ℤ :=
  block_timestamp + additional_seconds

/-- The dictionary returned by `get_current_state`, field per key. -/
structure Snapshot where
  remainVest : ℚ
  totalBoostToken : ℚ
  weight : ℚ
  totalVested : ℚ
  availableToClaim : ℚ
  speedPer2Year : ℚ
  totalUnclaimedTorch : ℚ
  totalWithdrawableBoost : ℚ
deriving DecidableEq

/-- `get_current_state` (read-only).  Mirrors the source literally, including
its local initialisations `total_vested = 0`, `remain_vest = self.total_vested`,
`boost_weight = self.boost_weight` and the final
`"Speed (per 2 year)": self.speed * 2 * 365 * 24 * 3600`. -/
def VB.get_current_state (block_timestamp : ℤ) (s : VB) : Except VBErr Snapshot :=
  let total_vested : ℚ := 0
  let remain_vest : ℚ := s.total_vested
  let boost_weight : ℚ := s.boost_weight
  if s.last_update_time < block_timestamp then
    match VB.cal_state_update block_timestamp s with
    | .error e => .error e
    | .ok (new_vested, new_boost_weight) =>
      .ok { remainVest := remain_vest - new_vested
            totalBoostToken := s.total_boost_token
            weight := new_boost_weight
            totalVested := total_vested + new_vested
            availableToClaim := total_vested + new_vested - s.claimed_amount
            speedPer2Year := s.speed * (2 * 365 * 24 * 3600)
            totalUnclaimedTorch := s.claimable_vested_token
            totalWithdrawableBoost := s.claimable_boost_token }
  else
    .ok { remainVest := remain_vest
          totalBoostToken := s.total_boost_token
          weight := boost_weight
          totalVested := total_vested
          availableToClaim := total_vested - s.claimed_amount
          speedPer2Year := s.speed * (2 * 365 * 24 * 3600)
          totalUnclaimedTorch := s.claimable_vested_token
          totalWithdrawableBoost := s.claimable_boost_token }

/-- Reachable configurations `(clock, ledger, deposited)` of the system:
the clock starts at `BLOCK_TIMESTAMP = 0`, the ledger is constructed with a
positive initial amount, and the caller issues `adjust_time`, `boost` and
`add_vesting` with the spec's nonnegative arguments.  Because a Python
exception leaves the object alive in its partially mutated condition, the
post-state of a *failed* call is reachable too — `boost` and `add_vesting`
steps keep the second component of the result unconditionally.  The ghost
index `D` records the tokens actually deposited: the initial amount plus
every `add_vesting` amount whose call got past reconciliation (a deposit
whose call raised before any mutation never reached the ledger).
`get_current_state` is pure and needs no step. -/
inductive Reach : ℤ → VB → ℚ → Prop where
  | init : ∀ (v : ℚ) (s : VB), 0 < v → VB.init 0 v = Except.ok s → Reach 0 s v
  | adjust : ∀ (t : ℤ) (s : VB) (D : ℚ) (d : ℤ), Reach t s D → 0 ≤ d →
      Reach (VB.adjust_time t d) s D
  | boostStep : ∀ (t : ℤ) (s : VB) (D a : ℚ), Reach t s D → 0 ≤ a →
      Reach t (VB.boost t a s).2 D
  | addStep : ∀ (t : ℤ) (s : VB) (D a : ℚ) (s1 : VB), Reach t s D → 0 ≤ a →
      VB.update_state t s = Except.ok s1 →
      Reach t (VB.add_vesting t a s).2 (D + a)

/-- The inductive invariant maintained by every reachable configuration. -/
def LedgerInv (t : ℤ) (s : VB) : Prop :=
  0 ≤ s.remain_vest_token ∧ 0 ≤ s.total_vested ∧ 0 ≤ s.total_boost_token ∧
  0 ≤ s.boost_weight ∧ 0 ≤ s.speed ∧ s.claimed_amount = 0 ∧
  s.total_duration_seconds = ONE_YEAR_IN_SECONDS * 2 ∧ s.last_update_time ≤ t ∧
  0 ≤ s.claimable_vested_token

/-- The ledger produced by `VestingBoost(initial_vesting=100)` at time 0. -/
def vb100 : VB :=
  { remain_vest_token := 100
    total_boost_token := 0
    total_vested := 0
    speed := 100 / (ONE_YEAR_IN_SECONDS * 2)
    boost_weight := 0
    total_duration_seconds := ONE_YEAR_IN_SECONDS * 2
    last_update_time := 0
    claimed_amount := 0
    claimable_boost_token := 0
    claimable_vested_token := 0 }

/-- Evaluation: `VestingBoost(initial_vesting=100)` at clock 0 yields `vb100`. -/
lemma vb100_init : VB.init 0 100 = Except.ok vb100 := by
  norm_num [VB.init, VB.update_vesting_speed, ONE_YEAR_IN_SECONDS, vb100]

/-- The ledger `vb100` after a successful `boost(100)` at clock 0:
multiplier 2, speed `200 / durationSeconds`. -/
def vb100b : VB :=
  { remain_vest_token := 100
    total_boost_token := 100
    total_vested := 0
    speed := 200 / (ONE_YEAR_IN_SECONDS * 2)
    boost_weight := 100
    total_duration_seconds := ONE_YEAR_IN_SECONDS * 2
    last_update_time := 0
    claimed_amount := 0
    claimable_boost_token := 0
    claimable_vested_token := 0 }

lemma vb100_boost100 : VB.boost 0 100 vb100 = (none, vb100b) := by
  norm_num [VB.boost, VB.update_state, VB.cal_state_update, VB.update_vesting_speed,
    ONE_YEAR_IN_SECONDS, vb100, vb100b, min_def]

/-- The mutated wreck left behind by `boost(0)` on `vb100` at clock
`63072000` (the full duration having elapsed): reconciliation inside the call
vested everything, then the speed recomputation raised `ZeroDivisionError`,
leaving `remain == 0` with the stale positive `speed`. -/
def vb100Full : VB :=
  { remain_vest_token := 0
    total_boost_token := 0
    total_vested := 100
    speed := 100 / (ONE_YEAR_IN_SECONDS * 2)
    boost_weight := 0
    total_duration_seconds := ONE_YEAR_IN_SECONDS * 2
    last_update_time := 63072000
    claimed_amount := 0
    claimable_boost_token := 0
    claimable_vested_token := 0 }

lemma vb100_boost_full :
    VB.boost 63072000 0 vb100 = (some VBErr.divisionByZero, vb100Full) := by
  norm_num [VB.boost, VB.update_state, VB.cal_state_update, VB.update_vesting_speed,
    ONE_YEAR_IN_SECONDS, vb100, vb100Full, min_def]

/-! ### Characterisation lemmas for the internal operations -/

lemma update_vesting_speed_ok {s s' : VB}
    (h : VB.update_vesting_speed s = Except.ok s') :
    s.remain_vest_token ≠ 0 ∧ s.total_duration_seconds ≠ 0 ∧
    s' = { s with speed :=
      ((s.remain_vest_token + s.boost_weight) / s.remain_vest_token) *
        (s.remain_vest_token / s.total_duration_seconds) } := by
  unfold VB.update_vesting_speed at h
  split_ifs at h with h1 h2
  · exact ⟨h1, h2, by injection h with h; exact h.symm⟩

lemma update_vesting_speed_eq_ok {s : VB}
    (h1 : s.remain_vest_token ≠ 0) (h2 : s.total_duration_seconds ≠ 0) :
    VB.update_vesting_speed s = Except.ok { s with speed :=
      ((s.remain_vest_token + s.boost_weight) / s.remain_vest_token) *
        (s.remain_vest_token / s.total_duration_seconds) } := by
  unfold VB.update_vesting_speed
  simp [h1, h2]

lemma update_vesting_speed_error {s : VB} {e : VBErr}
    (h : VB.update_vesting_speed s = Except.error e) : e = VBErr.divisionByZero := by
  unfold VB.update_vesting_speed at h
  split_ifs at h <;> simp_all

lemma speed_formula {r bw dur : ℚ} (hr : r ≠ 0) :
    ((r + bw) / r) * (r / dur) = (r + bw) / dur := by
  rw [div_mul_div_comm, mul_comm r dur, mul_div_mul_right _ _ hr]

lemma cal_state_update_eq_ok {t : ℤ} {s : VB}
    (h : s.remain_vest_token + s.total_vested ≠ 0) :
    VB.cal_state_update t s = Except.ok
      (min (s.speed * ((t - s.last_update_time : ℤ) : ℚ)) s.remain_vest_token,
       s.total_boost_token *
         ((s.total_vested +
             min (s.speed * ((t - s.last_update_time : ℤ) : ℚ)) s.remain_vest_token) /
           (s.remain_vest_token + s.total_vested))) := by
  unfold VB.cal_state_update
  simp [h]

lemma cal_state_update_ok {t : ℤ} {s : VB} {nv nbw : ℚ}
    (h : VB.cal_state_update t s = Except.ok (nv, nbw)) :
    nv = min (s.speed * ((t - s.last_update_time : ℤ) : ℚ)) s.remain_vest_token ∧
    nbw = s.total_boost_token *
      ((s.total_vested + nv) / (s.remain_vest_token + s.total_vested)) ∧
    s.remain_vest_token + s.total_vested ≠ 0 := by
  have he : s.remain_vest_token + s.total_vested ≠ 0 := by
    intro h0
    rw [VB.cal_state_update] at h
    simp [h0] at h
  rw [cal_state_update_eq_ok he, Except.ok.injEq, Prod.mk.injEq] at h
  exact ⟨h.1.symm, by rw [← h.2, h.1], he⟩

lemma cal_state_update_error {t : ℤ} {s : VB} {e : VBErr}
    (h : VB.cal_state_update t s = Except.error e) :
    e = VBErr.divisionByZero ∧ s.remain_vest_token + s.total_vested = 0 := by
  unfold VB.cal_state_update at h
  split_ifs at h with hden
  simp_all

lemma update_state_eq_self {t : ℤ} {s : VB} (h : ¬ s.last_update_time < t) :
    VB.update_state t s = Except.ok s := by
  unfold VB.update_state
  simp [h]

lemma update_state_error {t : ℤ} {s : VB} {e : VBErr}
    (h : VB.update_state t s = Except.error e) :
    e = VBErr.divisionByZero ∧ s.remain_vest_token + s.total_vested = 0 := by
  unfold VB.update_state at h
  split_ifs at h with hlt
  · cases hc : VB.cal_state_update t s with
    | error e' =>
      rw [hc] at h
      injection h with h
      exact h ▸ cal_state_update_error hc
    | ok p => rw [hc] at h; simp at h

/-- Everything `_update_state` can do to the fields: on success the epoch
total `remain + totalVested` and every field other than
`remain_vest_token, total_vested, boost_weight, last_update_time` are
untouched. -/
lemma update_state_preserves {t : ℤ} {s s' : VB}
    (h : VB.update_state t s = Except.ok s') :
    s'.remain_vest_token + s'.total_vested = s.remain_vest_token + s.total_vested ∧
    s'.total_boost_token = s.total_boost_token ∧
    s'.speed = s.speed ∧
    s'.total_duration_seconds = s.total_duration_seconds ∧
    s'.claimed_amount = s.claimed_amount ∧
    s'.claimable_boost_token = s.claimable_boost_token ∧
    s'.claimable_vested_token = s.claimable_vested_token := by
  unfold VB.update_state at h
  split_ifs at h with hlt
  · cases hc : VB.cal_state_update t s with
    | error e => rw [hc] at h; simp at h
    | ok p =>
      rw [hc] at h
      injection h with h
      subst h
      refine ⟨by ring, rfl, rfl, rfl, rfl, rfl, rfl⟩
  · injection h with h
    subst h
    exact ⟨rfl, rfl, rfl, rfl, rfl, rfl, rfl⟩

/-! ### Preservation of the invariant by each operation -/

lemma ledgerInv_update_state {t : ℤ} {s s' : VB} (hI : LedgerInv t s)
    (h : VB.update_state t s = Except.ok s') : LedgerInv t s' := by
  obtain ⟨hr, htv, htb, hbw, hsp, hcl, hdur, hlut, hcvt⟩ := hI
  unfold VB.update_state at h
  split_ifs at h with hlt
  · cases hc : VB.cal_state_update t s with
    | error e => rw [hc] at h; simp at h
    | ok p =>
      obtain ⟨nv, nbw⟩ := p
      obtain ⟨h1, h2, hden⟩ := cal_state_update_ok hc
      rw [hc] at h
      injection h with h
      subst h
      have hdt : (0:ℚ) ≤ ((t - s.last_update_time : ℤ) : ℚ) := by
        have h0 : (0:ℤ) ≤ t - s.last_update_time := by omega
        exact_mod_cast h0
      have hnv0 : 0 ≤ nv := by
        rw [h1]; exact le_min (mul_nonneg hsp hdt) hr
      have hnvr : nv ≤ s.remain_vest_token := h1 ▸ min_le_right _ _
      have hE : 0 < s.remain_vest_token + s.total_vested :=
        lt_of_le_of_ne (by linarith) (Ne.symm hden)
      refine ⟨?_, ?_, htb, ?_, hsp, hcl, hdur, le_refl t, hcvt⟩
      · show 0 ≤ s.remain_vest_token - nv
        linarith
      · show 0 ≤ s.total_vested + nv
        linarith
      · show 0 ≤ nbw
        rw [h2]
        exact mul_nonneg htb (div_nonneg (by linarith) (le_of_lt hE))
  · injection h with h
    subst h
    exact ⟨hr, htv, htb, hbw, hsp, hcl, hdur, hlut, hcvt⟩

lemma ledgerInv_reset {t : ℤ} {s : VB} (hI : LedgerInv t s) :
    LedgerInv t (VB.reset_state t s) := by
  obtain ⟨hr, htv, htb, hbw, hsp, hcl, hdur, hlut, hcvt⟩ := hI
  refine ⟨le_refl 0, le_refl 0, le_refl 0, le_refl 0, le_refl 0, rfl, rfl, le_refl t, ?_⟩
  show 0 ≤ s.claimable_vested_token + (s.total_vested - s.claimed_amount)
  rw [hcl]
  linarith

lemma ledgerInv_update_vesting_speed {t : ℤ} {s s' : VB} (hI : LedgerInv t s)
    (h : VB.update_vesting_speed s = Except.ok s') : LedgerInv t s' := by
  obtain ⟨hrne, hdurne, hs'⟩ := update_vesting_speed_ok h
  obtain ⟨hr, htv, htb, hbw, hsp, hcl, hdur, hlut, hcvt⟩ := hI
  subst hs'
  refine ⟨hr, htv, htb, hbw, ?_, hcl, hdur, hlut, hcvt⟩
  show 0 ≤ ((s.remain_vest_token + s.boost_weight) / s.remain_vest_token) *
    (s.remain_vest_token / s.total_duration_seconds)
  have hdurpos : 0 < s.total_duration_seconds := by
    rw [hdur]; norm_num [ONE_YEAR_IN_SECONDS]
  exact mul_nonneg (div_nonneg (by linarith) hr) (div_nonneg hr (le_of_lt hdurpos))

lemma ledgerInv_boost {t : ℤ} {s : VB} {a : ℚ} (hI : LedgerInv t s) (ha : 0 ≤ a) :
    LedgerInv t (VB.boost t a s).2 ∧
    ((VB.boost t a s).2.remain_vest_token + (VB.boost t a s).2.total_vested +
        (VB.boost t a s).2.claimable_vested_token
      = s.remain_vest_token + s.total_vested + s.claimable_vested_token) := by
  unfold VB.boost
  by_cases h1 : 0 < s.remain_vest_token
  case neg => rw [if_pos h1]; exact ⟨hI, rfl⟩
  rw [if_neg (not_not_intro h1)]
  by_cases h2 : s.total_boost_token + a ≤ s.remain_vest_token + s.total_vested
  case neg => rw [if_pos h2]; exact ⟨hI, rfl⟩
  rw [if_neg (not_not_intro h2)]
  cases hus : VB.update_state t s with
  | error e => exact ⟨hI, rfl⟩
  | ok s1 =>
      dsimp only
      have hI1 := ledgerInv_update_state hI hus
      obtain ⟨hsum, htbp, hspp, hdurp, hclp, hcbp, hcvp⟩ := update_state_preserves hus
      obtain ⟨hr1, htv1, htb1, hbw1, hsp1, hcl1, hdur1, hlut1, hcvt1⟩ := hI1
      have hI2 : LedgerInv t { s1 with
          total_boost_token := s1.total_boost_token + a
          boost_weight := s1.boost_weight + a } :=
        ⟨hr1, htv1, add_nonneg htb1 ha, add_nonneg hbw1 ha, hsp1, hcl1, hdur1, hlut1, hcvt1⟩
      cases hvs : VB.update_vesting_speed { s1 with
          total_boost_token := s1.total_boost_token + a
          boost_weight := s1.boost_weight + a } with
      | error e =>
        refine ⟨hI2, ?_⟩
        show s1.remain_vest_token + s1.total_vested + s1.claimable_vested_token = _
        rw [hcvp]; linarith
      | ok s3 =>
        refine ⟨ledgerInv_update_vesting_speed hI2 hvs, ?_⟩
        obtain ⟨_, _, hs3⟩ := update_vesting_speed_ok hvs
        subst hs3
        show s1.remain_vest_token + s1.total_vested + s1.claimable_vested_token = _
        rw [hcvp]; linarith

lemma ledgerInv_add {t : ℤ} {s s1 : VB} {a : ℚ} (hI : LedgerInv t s) (ha : 0 ≤ a)
    (hus : VB.update_state t s = Except.ok s1) :
    LedgerInv t (VB.add_vesting t a s).2 ∧
    ((VB.add_vesting t a s).2.remain_vest_token + (VB.add_vesting t a s).2.total_vested +
        (VB.add_vesting t a s).2.claimable_vested_token
      = s.remain_vest_token + s.total_vested + s.claimable_vested_token + a) := by
  unfold VB.add_vesting
  rw [hus]
  dsimp only
  have hI1 := ledgerInv_update_state hI hus
  obtain ⟨hsum, htbp, hspp, hdurp, hclp, hcbp, hcvp⟩ := update_state_preserves hus
  have hsum1 : s1.remain_vest_token + s1.total_vested + s1.claimable_vested_token
      = s.remain_vest_token + s.total_vested + s.claimable_vested_token := by
    rw [hcvp]; linarith
  -- the intermediate state after the conditional reset
  set s2 : VB := if s1.remain_vest_token = 0 then VB.reset_state t s1 else s1 with hs2
  have hI2 : LedgerInv t s2 := by
    rw [hs2]
    split_ifs
    · exact ledgerInv_reset hI1
    · exact hI1
  have hsum2 : s2.remain_vest_token + s2.total_vested + s2.claimable_vested_token
      = s.remain_vest_token + s.total_vested + s.claimable_vested_token := by
    rw [hs2]
    split_ifs with h0
    · show (0:ℚ) + 0 + (s1.claimable_vested_token + (s1.total_vested - s1.claimed_amount)) = _
      have hcl1 : s1.claimed_amount = 0 := hI1.2.2.2.2.2.1
      rw [hcl1, ← hsum1, h0]; ring
    · exact hsum1
  obtain ⟨hr2, htv2, htb2, hbw2, hsp2, hcl2, hdur2, hlut2, hcvt2⟩ := hI2
  have hI3 : LedgerInv t { s2 with remain_vest_token := s2.remain_vest_token + a } :=
    ⟨add_nonneg hr2 ha, htv2, htb2, hbw2, hsp2, hcl2, hdur2, hlut2, hcvt2⟩
  cases hvs : VB.update_vesting_speed { s2 with
      remain_vest_token := s2.remain_vest_token + a } with
  | error e =>
    refine ⟨hI3, ?_⟩
    show s2.remain_vest_token + a + s2.total_vested + s2.claimable_vested_token = _
    linarith
  | ok s4 =>
    refine ⟨ledgerInv_update_vesting_speed hI3 hvs, ?_⟩
    obtain ⟨_, _, hs4⟩ := update_vesting_speed_ok hvs
    subst hs4
    show s2.remain_vest_token + a + s2.total_vested + s2.claimable_vested_token = _
    linarith

/-- Master lemma: every reachable configuration satisfies the invariant and
conserves tokens: `remaining + totalVested + claimableVestedToken` equals the
tokens deposited. -/
lemma reach_ledgerInv {t : ℤ} {s : VB} {D : ℚ} (h : Reach t s D) :
    LedgerInv t s ∧
    s.remain_vest_token + s.total_vested + s.claimable_vested_token = D := by
  induction h with
  | init v s hv hs =>
    unfold VB.init at hs
    obtain ⟨hrne, hdurne, hseq⟩ := update_vesting_speed_ok hs
    subst hseq
    refine ⟨⟨le_of_lt hv, le_refl 0, le_refl 0, le_refl 0, ?_, rfl, rfl, le_refl 0,
      le_refl 0⟩, by show v + 0 + 0 = v; ring⟩
    show 0 ≤ ((v + 0) / v) * (v / (ONE_YEAR_IN_SECONDS * 2))
    have hy : (0:ℚ) < ONE_YEAR_IN_SECONDS * 2 := by norm_num [ONE_YEAR_IN_SECONDS]
    positivity
  | adjust t s D d hR hd ih =>
    obtain ⟨⟨hr, htv, htb, hbw, hsp, hcl, hdur, hlut, hcvt⟩, hsum⟩ := ih
    refine ⟨⟨hr, htv, htb, hbw, hsp, hcl, hdur, ?_, hcvt⟩, hsum⟩
    unfold VB.adjust_time
    omega
  | boostStep t s D a hR ha ih =>
    obtain ⟨hI, hsum⟩ := ih
    obtain ⟨hI', hsum'⟩ := ledgerInv_boost hI ha
    exact ⟨hI', by rw [hsum']; exact hsum⟩
  | addStep t s D a s1 hR ha hus ih =>
    obtain ⟨hI, hsum⟩ := ih
    obtain ⟨hI', hsum'⟩ := ledgerInv_add hI ha hus
    exact ⟨hI', by rw [hsum', hsum]⟩

/-! ### Further case-analysis helpers for `boost` -/

lemma boost_noTokens_case {t : ℤ} {a : ℚ} {s : VB} (h1 : ¬ 0 < s.remain_vest_token) :
    VB.boost t a s = (some VBErr.noTokensToVest, s) := by
  unfold VB.boost
  rw [if_pos h1]

lemma boost_capFail_case {t : ℤ} {a : ℚ} {s : VB} (h1 : 0 < s.remain_vest_token)
    (h2 : ¬ (s.total_boost_token + a ≤ s.remain_vest_token + s.total_vested)) :
    VB.boost t a s = (some VBErr.boostExceedsCap, s) := by
  unfold VB.boost
  rw [if_neg (not_not_intro h1), if_pos h2]

lemma boost_us_error_case {t : ℤ} {a : ℚ} {s : VB} {e : VBErr}
    (h1 : 0 < s.remain_vest_token)
    (h2 : s.total_boost_token + a ≤ s.remain_vest_token + s.total_vested)
    (hus : VB.update_state t s = Except.error e) :
    VB.boost t a s = (some e, s) := by
  unfold VB.boost
  rw [if_neg (not_not_intro h1), if_neg (not_not_intro h2), hus]

lemma boost_after_us {t : ℤ} {a : ℚ} {s s1 : VB} (h1 : 0 < s.remain_vest_token)
    (h2 : s.total_boost_token + a ≤ s.remain_vest_token + s.total_vested)
    (hus : VB.update_state t s = Except.ok s1) :
    VB.boost t a s =
      (match VB.update_vesting_speed { s1 with
          total_boost_token := s1.total_boost_token + a
          boost_weight := s1.boost_weight + a } with
        | .error e => (some e, { s1 with
            total_boost_token := s1.total_boost_token + a
            boost_weight := s1.boost_weight + a })
        | .ok s3 => (none, s3)) := by
  unfold VB.boost
  rw [if_neg (not_not_intro h1), if_neg (not_not_intro h2), hus]

/-- Reachability of the demonstration start state. -/
lemma reach_vb100 : Reach 0 vb100 100 :=
  Reach.init 100 vb100 (by norm_num) vb100_init

/-! ### Claims -/

/-- The snapshot `get_current_state` returns on the freshly constructed
ledger `vb100` at clock 0. -/
def snapFresh : Snapshot :=
  { remainVest := 0
    totalBoostToken := 0
    weight := 0
    totalVested := 0
    availableToClaim := 0
    speedPer2Year := 100
    totalUnclaimedTorch := 0
    totalWithdrawableBoost := 0 }

/-- **C1.** The claim says `getState` reports remaining-vested-in-epoch
`= remaining - accrued` and totalVestedInEpoch `= totalVested + accrued`.
The code disagrees: it initialises its local `remain_vest` from
`self.total_vested` and its local `total_vested` from `0` (an off-by-one-line
slip, contradicting the method's own docstring and dictionary keys), so on
the freshly constructed ledger `vb100` — whose `remain_vest_token` is 100 and
with nothing accrued — the snapshot reports remaining-vested-in-epoch `0`.
This theorem evaluates the code at that failing input. -/
theorem C1_get_current_state_failing_eval :
    VB.get_current_state 0 vb100 = Except.ok snapFresh ∧
    vb100.remain_vest_token = 100 ∧ snapFresh.remainVest = 0 := by
  refine ⟨?_, by norm_num [vb100], rfl⟩
  norm_num [VB.get_current_state, vb100, snapFresh, ONE_YEAR_IN_SECONDS]

/-- **C2.** Conservation: in every reachable configuration,
`remaining + totalVested + claimableVestedToken` equals the initial vesting
amount plus the sum of all (landed) `addVesting` amounts — no tokens are
created or destroyed by reconciliation, boosting, or epoch reset. -/
theorem C2_conservation (t : ℤ) (s : VB) (D : ℚ) (h : Reach t s D) :
    s.remain_vest_token + s.total_vested + s.claimable_vested_token = D :=
  (reach_ledgerInv h).2

theorem C2_conservation_witness :
    vb100.remain_vest_token + vb100.total_vested + vb100.claimable_vested_token = 100 :=
  C2_conservation 0 vb100 100 reach_vb100

/-- **C3 counterexample.** The claim says `speed == 0` whenever
`remaining == 0` in every reachable state, and that after advancing time by
the full duration any reconciling operation leaves `speed = 0`.  Both fail:
`boost(0)` on the fully elapsed demonstration ledger reconciles
`remaining` down to `0`, then raises `ZeroDivisionError` out of the speed
recomputation, leaving a reachable state with `remaining = 0` and the stale
`speed = 100/63072000 ≠ 0`. -/
theorem C3_counterexample :
    Reach 63072000 vb100Full 100 ∧
    vb100Full.remain_vest_token = 0 ∧
    vb100Full.speed ≠ 0 := by
  refine ⟨?_, rfl, by norm_num [vb100Full, ONE_YEAR_IN_SECONDS]⟩
  have h2 := Reach.adjust 0 vb100 100 63072000 reach_vb100 (by norm_num)
  have hadj : VB.adjust_time 0 63072000 = 63072000 := by norm_num [VB.adjust_time]
  rw [hadj] at h2
  have h3 := Reach.boostStep 63072000 vb100 100 0 h2 (le_refl 0)
  have hb : (VB.boost 63072000 0 vb100).2 = vb100Full := by rw [vb100_boost_full]
  rw [hb] at h3
  exact h3

/-- **C3 (amended).** What survives of the claim: in every reachable state
`speed ≥ 0`.  (`speed == 0` at `remaining == 0` and "speed becomes 0 after
full elapse" are refuted by the counterexample: reconciliation caps accrual
at `remaining` but never zeroes the stored `speed`; only `_reset_state`
does.) -/
theorem C3_amended_speed_nonneg (t : ℤ) (s : VB) (D : ℚ) (h : Reach t s D) :
    0 ≤ s.speed :=
  (reach_ledgerInv h).1.2.2.2.2.1

theorem C3_amended_witness : 0 ≤ vb100.speed :=
  C3_amended_speed_nonneg 0 vb100 100 reach_vb100

/-- **C4 counterexample.** The claim says a failing operation leaves every
ledger field exactly as before the call, and that speed recomputation with
`remaining == 0` outside the reset path is unreachable.  Both fail on
`boost(5)` against the fully elapsed demonstration ledger: the stale
precondition check passes (`remain_vest_token` is still 100 before
reconciliation), the call reconciles `remaining` to `0`, adds 5 to
`total_boost_token` and `boost_weight`, and only then raises
`ZeroDivisionError` from `_update_vesting_speed` — a listed error
(`InvalidState`) surfaced *after* partial mutation. -/
theorem C4_counterexample :
    (VB.boost 63072000 5 vb100).1 = some VBErr.divisionByZero ∧
    (VB.boost 63072000 5 vb100).2.total_boost_token = 5 ∧
    vb100.total_boost_token = 0 ∧
    (VB.boost 63072000 5 vb100).2 ≠ vb100 := by
  have hev : VB.boost 63072000 5 vb100 =
      (some VBErr.divisionByZero, { vb100Full with
        total_boost_token := 5
        boost_weight := 5 }) := by
    norm_num [VB.boost, VB.update_state, VB.cal_state_update, VB.update_vesting_speed,
      vb100, vb100Full, ONE_YEAR_IN_SECONDS, min_def]
  rw [hev]
  refine ⟨rfl, rfl, by norm_num [vb100], ?_⟩
  intro hcontra
  have h5 := congrArg VB.total_boost_token hcontra
  norm_num [vb100] at h5

/-- A ledger with nothing left to vest, used to exercise the
`NoTokensToVest` assert. -/
def vbZero : VB :=
  { remain_vest_token := 0
    total_boost_token := 0
    total_vested := 0
    speed := 0
    boost_weight := 0
    total_duration_seconds := ONE_YEAR_IN_SECONDS * 2
    last_update_time := 0
    claimed_amount := 0
    claimable_boost_token := 0
    claimable_vested_token := 0 }

/-- **C4 (amended).** What survives of the claim: the two *checked*
preconditions of `boost` (`NoTokensToVest`, `BoostExceedsVestingCap`) are
tested before any field is mutated, so failing on either leaves the ledger
exactly as it was.  (The `InvalidState`/division-by-zero failure, by
contrast, is reachable and occurs after partial mutation, as the
counterexample shows; `adjust_time` and `add_vesting` never touch the ledger
before their own reconciliation step.) -/
theorem C4_amended_assert_failures_pure (t : ℤ) (a : ℚ) (s : VB)
    (h : (VB.boost t a s).1 = some VBErr.noTokensToVest ∨
         (VB.boost t a s).1 = some VBErr.boostExceedsCap) :
    (VB.boost t a s).2 = s := by
  by_cases h1 : 0 < s.remain_vest_token
  · by_cases h2 : s.total_boost_token + a ≤ s.remain_vest_token + s.total_vested
    · cases hus : VB.update_state t s with
      | error e =>
        rw [boost_us_error_case h1 h2 hus]
      | ok s1 =>
        rw [boost_after_us h1 h2 hus] at h
        exfalso
        cases hvs : VB.update_vesting_speed { s1 with
            total_boost_token := s1.total_boost_token + a
            boost_weight := s1.boost_weight + a } with
        | error e =>
          rw [hvs] at h
          obtain rfl := update_vesting_speed_error hvs
          simp at h
        | ok s3 =>
          rw [hvs] at h
          simp at h
    · rw [boost_capFail_case h1 h2]
  · rw [boost_noTokens_case h1]

theorem C4_amended_witness : (VB.boost 0 7 vbZero).2 = vbZero :=
  C4_amended_assert_failures_pure 0 7 vbZero
    (Or.inl (by rw [boost_noTokens_case (by norm_num [vbZero])]))

/-- **C5 counterexample.** The claim enumerates `NoTokensToVest` and
`BoostExceedsVestingCap` as the failure modes and says that otherwise `boost`
reconciles, adds the amount, and recomputes speed.  On the fully elapsed
demonstration ledger both enumerated conditions are absent (`remaining = 100`
at call time, the cap holds), yet the call fails with `ZeroDivisionError`
instead of recomputing speed, because reconciliation inside the call
exhausts `remaining`. -/
theorem C5_counterexample :
    0 < vb100.remain_vest_token ∧
    vb100.total_boost_token + 0 ≤ vb100.remain_vest_token + vb100.total_vested ∧
    (VB.boost 63072000 0 vb100).1 = some VBErr.divisionByZero := by
  refine ⟨by norm_num [vb100], by norm_num [vb100], ?_⟩
  rw [vb100_boost_full]

/-- **C5 (amended).** Full characterisation of `boost` on states with
nonnegative `remaining`: it fails `NoTokensToVest` exactly when
`remaining == 0`, and (when `remaining ≠ 0`) fails `BoostExceedsVestingCap`
exactly when `remaining + totalVested < totalBoost + amount`; otherwise it
reconciles and adds the amount to `totalBoost` and `boostWeight`, but the
final speed recomputation succeeds only when the *reconciled* remaining is
nonzero — if reconciliation exhausted `remaining`, the call instead raises
division-by-zero with the boost partially applied. -/
theorem C5_amended_boost_cases (t : ℤ) (a : ℚ) (s : VB)
    (hr : 0 ≤ s.remain_vest_token) (hdur : s.total_duration_seconds ≠ 0) :
    ((VB.boost t a s).1 = some VBErr.noTokensToVest ↔ s.remain_vest_token = 0) ∧
    (s.remain_vest_token ≠ 0 →
      ((VB.boost t a s).1 = some VBErr.boostExceedsCap ↔
        s.remain_vest_token + s.total_vested < s.total_boost_token + a)) ∧
    (∀ s1 : VB, s.remain_vest_token ≠ 0 →
      s.total_boost_token + a ≤ s.remain_vest_token + s.total_vested →
      VB.update_state t s = Except.ok s1 →
      ((s1.remain_vest_token = 0 →
        (VB.boost t a s).1 = some VBErr.divisionByZero ∧
        (VB.boost t a s).2.total_boost_token = s.total_boost_token + a) ∧
       (s1.remain_vest_token ≠ 0 →
        (VB.boost t a s).1 = none ∧
        (VB.boost t a s).2.total_boost_token = s.total_boost_token + a ∧
        (VB.boost t a s).2.boost_weight = s1.boost_weight + a ∧
        (VB.boost t a s).2.speed =
          (s1.remain_vest_token + (s1.boost_weight + a)) / s1.total_duration_seconds))) := by
  refine ⟨?_, ?_, ?_⟩
  · constructor
    · intro h
      by_contra hne
      have h1 : 0 < s.remain_vest_token := lt_of_le_of_ne hr (Ne.symm hne)
      by_cases h2 : s.total_boost_token + a ≤ s.remain_vest_token + s.total_vested
      · cases hus : VB.update_state t s with
        | error e =>
          rw [boost_us_error_case h1 h2 hus] at h
          obtain ⟨rfl, -⟩ := update_state_error hus
          simp at h
        | ok s1 =>
          rw [boost_after_us h1 h2 hus] at h
          cases hvs : VB.update_vesting_speed { s1 with
              total_boost_token := s1.total_boost_token + a
              boost_weight := s1.boost_weight + a } with
          | error e =>
            rw [hvs] at h
            obtain rfl := update_vesting_speed_error hvs
            simp at h
          | ok s3 =>
            rw [hvs] at h
            simp at h
      · rw [boost_capFail_case h1 h2] at h
        simp at h
    · intro h0
      rw [boost_noTokens_case (by rw [h0]; exact lt_irrefl 0)]
  · intro hne
    have h1 : 0 < s.remain_vest_token := lt_of_le_of_ne hr (Ne.symm hne)
    constructor
    · intro h
      by_contra hnlt
      push_neg at hnlt
      cases hus : VB.update_state t s with
      | error e =>
        rw [boost_us_error_case h1 hnlt hus] at h
        obtain ⟨rfl, -⟩ := update_state_error hus
        simp at h
      | ok s1 =>
        rw [boost_after_us h1 hnlt hus] at h
        cases hvs : VB.update_vesting_speed { s1 with
            total_boost_token := s1.total_boost_token + a
            boost_weight := s1.boost_weight + a } with
        | error e =>
          rw [hvs] at h
          obtain rfl := update_vesting_speed_error hvs
          simp at h
        | ok s3 =>
          rw [hvs] at h
          simp at h
    · intro hlt
      rw [boost_capFail_case h1 (not_le.mpr hlt)]
  · intro s1 hne hcap hus
    have h1 : 0 < s.remain_vest_token := lt_of_le_of_ne hr (Ne.symm hne)
    obtain ⟨-, htbp, -, hdurp, -, -, -⟩ := update_state_preserves hus
    constructor
    · intro hrem0
      have hvs : VB.update_vesting_speed { s1 with
          total_boost_token := s1.total_boost_token + a
          boost_weight := s1.boost_weight + a } = Except.error VBErr.divisionByZero := by
        unfold VB.update_vesting_speed
        rw [if_pos]
        exact hrem0
      rw [boost_after_us h1 hcap hus, hvs]
      exact ⟨rfl, by rw [← htbp]⟩
    · intro hrem1
      have hvs := update_vesting_speed_eq_ok
        (s := { s1 with
          total_boost_token := s1.total_boost_token + a
          boost_weight := s1.boost_weight + a }) hrem1
        (show s1.total_duration_seconds ≠ 0 by rw [hdurp]; exact hdur)
      rw [boost_after_us h1 hcap hus, hvs]
      dsimp only
      refine ⟨rfl, by rw [← htbp], rfl, ?_⟩
      exact speed_formula hrem1

theorem C5_amended_witness :
    (VB.boost 0 10 vb100).1 = none ∧
    (VB.boost 0 10 vb100).2.total_boost_token = 10 := by
  have h := C5_amended_boost_cases 0 10 vb100 (by norm_num [vb100])
    (by norm_num [vb100, ONE_YEAR_IN_SECONDS])
  have h3 := (h.2.2 vb100 (by norm_num [vb100]) (by norm_num [vb100])
    (update_state_eq_self (by norm_num [vb100]))).2 (by norm_num [vb100])
  refine ⟨h3.1, ?_⟩
  rw [h3.2.1]
  norm_num [vb100]

/-- **C6 counterexample.** The claim says `advanceTime` fails with
`InvalidAmount` on negative input and leaves the clock unchanged.  The source
performs no check at all: `adjust_time(-5)` from clock 10 raises nothing and
moves the clock to 5. -/
theorem C6_counterexample : VB.adjust_time 10 (-5) = 5 := by
  norm_num [VB.adjust_time]

/-- **C6 (amended).** `adjust_time` performs no sign validation: for negative
seconds it does not fail — its only effect in the source is
`BLOCK_TIMESTAMP += additional_seconds`, so the clock moves backward by
`|seconds|`; no ledger field is read or written (the method takes and touches
only the global clock). -/
theorem C6_amended_no_validation (t d : ℤ) (hd : d < 0) :
    VB.adjust_time t d = t + d ∧ VB.adjust_time t d < t := by
  unfold VB.adjust_time
  omega

theorem C6_amended_witness :
    VB.adjust_time 10 (-5) = 10 + (-5) ∧ VB.adjust_time 10 (-5) < 10 :=
  C6_amended_no_validation 10 (-5) (by norm_num)

/-- **C7 counterexample.** The claim says `addVesting` rejects a negative
amount with `InvalidAmount` and leaves the ledger unchanged.  The source has
no such check: `add_vesting(-30)` on the fresh ledger succeeds and subtracts
30 from `remain_vest_token`. -/
theorem C7_counterexample :
    (VB.add_vesting 0 (-30) vb100).1 = none ∧
    (VB.add_vesting 0 (-30) vb100).2.remain_vest_token = 70 := by
  norm_num [VB.add_vesting, VB.update_state, VB.cal_state_update, VB.reset_state,
    VB.update_vesting_speed, vb100, ONE_YEAR_IN_SECONDS, min_def]

/-- **C7 (amended).** `add_vesting` performs no amount validation: on a
reconciled ledger (`last_update_time = now`) with nonzero remaining whose
adjusted remaining is also nonzero, a *negative* amount is accepted without
any error and is simply added to `remain_vest_token`, shrinking it. -/
theorem C7_amended_no_validation (t : ℤ) (a : ℚ) (s : VB) (_ha : a < 0)
    (hlut : s.last_update_time = t) (hr : s.remain_vest_token ≠ 0)
    (hra : s.remain_vest_token + a ≠ 0) (hdur : s.total_duration_seconds ≠ 0) :
    (VB.add_vesting t a s).1 = none ∧
    (VB.add_vesting t a s).2.remain_vest_token = s.remain_vest_token + a := by
  have hus : VB.update_state t s = Except.ok s := update_state_eq_self (by omega)
  unfold VB.add_vesting
  rw [hus]
  dsimp only
  rw [if_neg hr]
  have hvs := update_vesting_speed_eq_ok
    (s := { s with remain_vest_token := s.remain_vest_token + a }) hra hdur
  rw [hvs]
  exact ⟨rfl, rfl⟩

theorem C7_amended_witness :
    (VB.add_vesting 0 (-30) vb100).1 = none ∧
    (VB.add_vesting 0 (-30) vb100).2.remain_vest_token
      = vb100.remain_vest_token + (-30) :=
  C7_amended_no_validation 0 (-30) vb100 (by norm_num) (by norm_num [vb100])
    (by norm_num [vb100]) (by norm_num [vb100])
    (by norm_num [vb100, ONE_YEAR_IN_SECONDS])

/-- **C8.** In every reconciliation step the accrued amount equals
`min(speed * dt, remaining)` with `dt = now - lastUpdateTime`, hence never
exceeds `remaining`; and in every reachable state `remaining ≥ 0`. -/
theorem C8_accrual_capped (t : ℤ) (s : VB) (D : ℚ) (h : Reach t s D) :
    0 ≤ s.remain_vest_token ∧
    ∀ nv nbw : ℚ, VB.cal_state_update t s = Except.ok (nv, nbw) →
      nv = min (s.speed * ((t - s.last_update_time : ℤ) : ℚ)) s.remain_vest_token ∧
      nv ≤ s.remain_vest_token := by
  refine ⟨(reach_ledgerInv h).1.1, ?_⟩
  intro nv nbw hc
  obtain ⟨h1, -, -⟩ := cal_state_update_ok hc
  exact ⟨h1, h1 ▸ min_le_right _ _⟩

theorem C8_witness :
    0 ≤ vb100.remain_vest_token ∧
    (0:ℚ) = min (vb100.speed * ((0 - vb100.last_update_time : ℤ) : ℚ))
      vb100.remain_vest_token ∧
    (0:ℚ) ≤ vb100.remain_vest_token := by
  have hc : VB.cal_state_update 0 vb100 = Except.ok (0, 0) := by
    norm_num [VB.cal_state_update, vb100, min_def, ONE_YEAR_IN_SECONDS]
  have h := C8_accrual_capped 0 vb100 100 reach_vb100
  exact ⟨h.1, (h.2 0 0 hc).1, (h.2 0 0 hc).2⟩

/-- **C9 counterexample.** The claim says that within one epoch, with no
intervening boost, the recomputed boostWeight is non-increasing.  The code
computes `totalBoost * fraction-vested`, which *grows* with vesting progress:
on the boosted demonstration ledger (totalBoost = 100, speed = 200/duration),
reconciliation at a quarter of the duration recomputes weight 50, and at half
the duration recomputes weight 100 — an increase. -/
theorem C9_counterexample :
    VB.boost 0 100 vb100 = (none, vb100b) ∧
    VB.cal_state_update 15768000 vb100b = Except.ok (50, 50) ∧
    VB.cal_state_update 31536000 vb100b = Except.ok (100, 100) ∧
    (50 : ℚ) < 100 := by
  refine ⟨vb100_boost100, ?_, ?_, by norm_num⟩
  · norm_num [VB.cal_state_update, vb100b, ONE_YEAR_IN_SECONDS, min_def]
  · norm_num [VB.cal_state_update, vb100b, ONE_YEAR_IN_SECONDS, min_def]

/-- **C9 (amended).** Within a single epoch with no intervening boost, the
recomputed boostWeight across reconciliations at increasing times is
non-*de*creasing: it is `totalBoost` scaled by the fraction of the epoch
already vested, which grows toward 1, so the weight grows toward `totalBoost`
as the underlying tokens vest (the spec's "decay" direction is reversed). -/
theorem C9_amended_weight_nondecreasing (s : VB) (t1 t2 : ℤ) (nv1 nbw1 nv2 nbw2 : ℚ)
    (_hl1 : s.last_update_time ≤ t1) (h12 : t1 ≤ t2)
    (hsp : 0 ≤ s.speed) (htb : 0 ≤ s.total_boost_token)
    (hr : 0 ≤ s.remain_vest_token) (htv : 0 ≤ s.total_vested)
    (hc1 : VB.cal_state_update t1 s = Except.ok (nv1, nbw1))
    (hc2 : VB.cal_state_update t2 s = Except.ok (nv2, nbw2)) :
    nbw1 ≤ nbw2 := by
  obtain ⟨e1, w1, hden⟩ := cal_state_update_ok hc1
  obtain ⟨e2, w2, -⟩ := cal_state_update_ok hc2
  have hE : 0 < s.remain_vest_token + s.total_vested :=
    lt_of_le_of_ne (by linarith) (Ne.symm hden)
  have hdt : ((t1 - s.last_update_time : ℤ) : ℚ) ≤ ((t2 - s.last_update_time : ℤ) : ℚ) := by
    have hz : (t1 - s.last_update_time : ℤ) ≤ (t2 - s.last_update_time : ℤ) := by omega
    exact_mod_cast hz
  have hnv : nv1 ≤ nv2 := by
    rw [e1, e2]
    exact min_le_min (mul_le_mul_of_nonneg_left hdt hsp) (le_refl _)
  rw [w1, w2]
  gcongr

theorem C9_amended_witness : (50:ℚ) ≤ 100 := by
  have hc1 : VB.cal_state_update 15768000 vb100b = Except.ok (50, 50) := by
    norm_num [VB.cal_state_update, vb100b, ONE_YEAR_IN_SECONDS, min_def]
  have hc2 : VB.cal_state_update 31536000 vb100b = Except.ok (100, 100) := by
    norm_num [VB.cal_state_update, vb100b, ONE_YEAR_IN_SECONDS, min_def]
  exact C9_amended_weight_nondecreasing vb100b 15768000 31536000 50 50 100 100
    (by norm_num [vb100b]) (by norm_num) (by norm_num [vb100b, ONE_YEAR_IN_SECONDS])
    (by norm_num [vb100b]) (by norm_num [vb100b]) (by norm_num [vb100b]) hc1 hc2

/-- **C10.** The constructor ends by recomputing speed, which divides by
`remain_vest_token`; with an initial vesting amount of 0 this raises an
unguarded `ZeroDivisionError`, so a ledger object is only produced for a
nonzero initial amount (for which construction always succeeds). -/
theorem C10_init_zero_divides :
    VB.init 0 0 = Except.error VBErr.divisionByZero ∧
    ∀ v : ℚ, v ≠ 0 → ∃ s : VB, VB.init 0 v = Except.ok s := by
  constructor
  · norm_num [VB.init, VB.update_vesting_speed]
  · intro v hv
    have h := update_vesting_speed_eq_ok (s :=
      { remain_vest_token := v
        total_boost_token := 0
        total_vested := 0
        speed := 0
        boost_weight := 0
        total_duration_seconds := ONE_YEAR_IN_SECONDS * 2
        last_update_time := 0
        claimed_amount := 0
        claimable_boost_token := 0
        claimable_vested_token := 0 }) hv (by norm_num [ONE_YEAR_IN_SECONDS])
    exact ⟨_, h⟩

theorem C10_witness : ∃ s : VB, VB.init 0 5 = Except.ok s :=
  C10_init_zero_divides.2 5 (by norm_num)
